import Mathlib

/-!
Shallow embedding of the core pipeline of `Chuvas.py` (column mapping,
validation, cleaning, DOT chart generation, date comparison), together with
theorems settling the frozen claims about it.

Tables are modelled as a list of column names plus rows of cells; a cell is
`Option String` (`none` models a pandas null/NaN, `some s` a string value).
-/

namespace Chuvas

/-! ### Python string helpers -/

/-- Whitespace test used by Python `str.strip`. -/
def ws (c : Char) : Bool := c.isWhitespace

/-- `str.strip` on a character list: drop leading and trailing whitespace. -/
def stripL (l : List Char) : List Char :=
  ((l.dropWhile ws).reverse.dropWhile ws).reverse

/-- Python `str.strip`. -/
def pyStrip (s : String) : String := String.mk (stripL s.data)

/-- Python `str(x)` on a cell: pandas `astype(str)` renders a null as `"nan"`. -/
def pyToStr : Option String → String
  | none => "nan"
  | some s => s

/-- One cell of `df_clean[col].astype(str).str.strip()` (Chuvas.py line 138). -/
def stripCell (c : Option String) : Option String := some (pyStrip (pyToStr c))

/-- ASCII-or-accented lowercasing, as Python `str.lower` (covers the accented
uppercase Latin letters that can occur in the headers of this app). -/
def pyLowerChar (c : Char) : Char :=
  if c = 'Á' then 'á' else if c = 'À' then 'à' else if c = 'Â' then 'â'
  else if c = 'Ã' then 'ã' else if c = 'É' then 'é' else if c = 'Ê' then 'ê'
  else if c = 'Í' then 'í' else if c = 'Ó' then 'ó' else if c = 'Ô' then 'ô'
  else if c = 'Õ' then 'õ' else if c = 'Ú' then 'ú' else if c = 'Ü' then 'ü'
  else if c = 'Ç' then 'ç' else c.toLower

/-- Python `str.lower`. -/
def pyLower (s : String) : String := String.mk (s.data.map pyLowerChar)

/-- Accent folding for one character: the fragment of the `unidecode`
library's transliteration covering the Portuguese accented letters. -/
def unidecChar (c : Char) : Char :=
  if c = 'á' ∨ c = 'à' ∨ c = 'â' ∨ c = 'ã' ∨ c = 'ä' then 'a'
  else if c = 'é' ∨ c = 'è' ∨ c = 'ê' ∨ c = 'ë' then 'e'
  else if c = 'í' ∨ c = 'ì' ∨ c = 'î' ∨ c = 'ï' then 'i'
  else if c = 'ó' ∨ c = 'ò' ∨ c = 'ô' ∨ c = 'õ' ∨ c = 'ö' then 'o'
  else if c = 'ú' ∨ c = 'ù' ∨ c = 'û' ∨ c = 'ü' then 'u'
  else if c = 'ç' then 'c'
  else c

/-- `unidecode` on a string (accent folding, on the fragment above). -/
def unidec (s : String) : String := String.mk (s.data.map unidecChar)

/-- Header normalization `unidecode(c.lower().strip())` (Chuvas.py line 99). -/
def normHeader (c : String) : String := unidec (pyStrip (pyLower c))

/-- Python `s.startswith(p)` on character lists. -/
def startsWithL : List Char → List Char → Bool
  | _, [] => true
  | [], _ :: _ => false
  | c :: l, p :: ps => c = p && startsWithL l ps

/-- Python `s.startswith(p)`. -/
def strStartsWith (s p : String) : Bool := startsWithL s.data p.data

/-! ### Date parsing and formatting

`limpar_dados` runs `pd.to_datetime(col, errors="coerce").dt.strftime("%d/%m/%Y")`.
We model `pd.to_datetime` on `"a/b/yyyy"` strings with pandas' default
(`dayfirst=False`) behaviour: the first component is taken as the month when it
is a plausible month, otherwise the two components are swapped when that makes
a valid date; anything else coerces to NaT (`none`). -/

/-- The decimal digit character for `n % 10`. -/
def digCh (n : Nat) : Char := Char.ofNat (48 + n % 10)

/-- Numeric value of a digit character. -/
def digVal (c : Char) : Nat := c.toNat - 48

/-- Decimal digits of `n` (most significant first), fuelled recursion. -/
def natDigsAux : Nat → Nat → List Char
  | 0, _ => []
  | fuel + 1, n => if n < 10 then [digCh n] else natDigsAux fuel (n / 10) ++ [digCh (n % 10)]

/-- Decimal digits of `n` (most significant first). -/
def natDigs (n : Nat) : List Char := natDigsAux (n + 1) n

/-- Zero-pad to two digits, as `strftime` `%d` / `%m`. -/
def pad2 (n : Nat) : List Char := if n < 10 then '0' :: natDigs n else natDigs n

/-- `strftime("%d/%m/%Y")` on a parsed `(year, month, day)`. -/
def fmtDate : Nat × Nat × Nat → String
  | (y, m, d) => String.mk (pad2 d ++ '/' :: (pad2 m ++ '/' :: natDigs y))

/-- Split a character list at every `'/'` (like `"a/b/c".split("/")`). -/
def splitSlash : List Char → List (List Char)
  | [] => [[]]
  | c :: l =>
    if c = '/' then [] :: splitSlash l
    else
      match splitSlash l with
      | [] => [[c]]
      | t :: ts => (c :: t) :: ts

/-- Parse a non-empty all-digit character list as a decimal number. -/
def parseNat (l : List Char) : Option Nat :=
  if l.isEmpty then none
  else if l.all Char.isDigit then some (l.foldl (fun a c => a * 10 + digVal c) 0)
  else none

/-- pandas `pd.to_datetime(s, errors="coerce")` on a slash-separated
all-numeric date string, returning `(year, month, day)`: month-first by
default, falling back to day-first when the first component cannot be a
month.  This models only the slash-separated numeric fragment of pandas
parsing; real pandas also parses other spellings (ISO `YYYY-MM-DD`,
dash-separated dates, two-digit years, ...) that this function coerces to
`none`, so a `none` result here must never be read as "real pandas fails" —
hypotheses below therefore demand a successful parse in this fragment and
stay silent about strings outside it. -/
def pandasParseDate (s : String) : Option (Nat × Nat × Nat) :=
  match splitSlash s.data with
  | [a, b, c] =>
    match parseNat a, parseNat b, parseNat c with
    | some x, some y, some z =>
      if 1 ≤ x ∧ x ≤ 12 ∧ 1 ≤ y ∧ y ≤ 31 then some (z, x, y)
      else if 1 ≤ y ∧ y ≤ 12 ∧ 1 ≤ x ∧ x ≤ 31 then some (z, y, x)
      else none
    | _, _, _ => none
  | _ => none

/-! ### Tables -/

/-- A raw or canonical table: ordered column names and rows of cells. -/
structure DataFrame where
  cols : List String
  rows : List (List (Option String))
deriving DecidableEq

/-- Cell of row `r` at column position `i` (missing positions read as null). -/
def cellAt (r : List (Option String)) (i : Nat) : Option String := r.getD i none

/-- First-appearance-order unique values, as pandas `Series.unique` /
`DataFrame.drop_duplicates` (both keep the first occurrence). -/
def uniqueF {α : Type} [DecidableEq α] (l : List α) : List α :=
  (l.reverse.dedup).reverse

/-! ### Schema resolver (`mapear_colunas`, Chuvas.py lines 86-106) -/

/-- `COLUNAS_ESPERADAS`: canonical field name to its synonym list, verbatim
from the source (note the accented synonyms are kept accented there). -/
def COLUNAS_ESPERADAS : List (String × List String) :=
  [("data", ["data", "date", "dt", "dia"]),
   ("nome", ["nome", "name", "funcionario", "pessoa"]),
   ("funcao", ["função", "funcao", "cargo", "position", "role"]),
   ("encarregado", ["encarregado", "responsavel", "líder", "leader", "supervisor_direto"]),
   ("supervisor", ["supervisor", "gestor", "coordenador", "manager", "chefe"])]

/-- `mapear_colunas`: for each canonical field, the first header whose
normalized form starts with one of the field's synonyms; fields with no
match are absent.  Returns the mapping in field-declaration order. -/
def mapear_colunas (colunas_df : List String) : List (String × String) :=
  let atuais := colunas_df.map normHeader
  COLUNAS_ESPERADAS.filterMap (fun kv =>
    ((atuais.zip colunas_df).find? (fun p => kv.2.any (fun s => strStartsWith p.1 s))).map
      (fun p => (kv.1, p.2)))

/-- `df_raw.rename(columns={v: k for k, v in mapeamento.items()})`.  The
Python dict inversion keeps the last canonical field when two fields map to
the same original header, hence the search over the reversed mapping. -/
def renameDf (df : DataFrame) (m : List (String × String)) : DataFrame :=
  { cols := df.cols.map (fun c =>
      (((m.reverse.find? (fun p => p.2 == c)).map (fun p => p.1)).getD c)),
    rows := df.rows }

/-! ### Validator (`validar_dados`, Chuvas.py lines 109-129) -/

/-- The critical columns checked for nulls. -/
def colunas_criticas : List String := ["nome", "funcao", "encarregado", "supervisor"]

/-- `df[col].isnull().sum()` for a named column (when present). -/
def nullCount (df : DataFrame) (col : String) : Option Nat :=
  (df.cols.findIdx? (fun c => c == col)).map
    (fun i => df.rows.countP (fun r => (cellAt r i).isNone))

/-- `df.duplicated().sum()`: rows equal to an earlier row. -/
def dupCount (rows : List (List (Option String))) : Nat :=
  rows.length - (uniqueF rows).length

/-- `validar_dados`: empty-table short circuit, then null counts per critical
column (in declaration order), then the duplicate-row count. -/
def validar_dados (df : DataFrame) : Bool × List String :=
  if df.rows.isEmpty || df.cols.isEmpty then (false, ["❌ Planilha está vazia"])
  else
    let nulosMsgs := colunas_criticas.filterMap (fun col =>
      match nullCount df col with
      | none => none
      | some n =>
        if 0 < n then
          some ("⚠️ " ++ toString n ++ " valores vazios na coluna \x27" ++ col ++ "\x27")
        else none)
    let d := dupCount df.rows
    let erros := nulosMsgs ++
      (if 0 < d then ["⚠️ " ++ toString d ++ " linhas duplicadas encontradas"] else [])
    (erros.isEmpty, erros)

/-! ### Cleaner (`limpar_dados`, Chuvas.py lines 132-147) -/

/-- The date-column transform on one (already stripped) cell:
`pd.to_datetime(_, errors="coerce").dt.strftime("%d/%m/%Y")`; an unparseable
value becomes null. -/
def cleanDateCell (c : Option String) : Option String :=
  (pandasParseDate (pyToStr c)).map fmtDate

/-- Clean the cells of one row: every cell is stringified and stripped, and
the cell at the `data` column position (tracked as a countdown) additionally
goes through the date canonicalization. -/
def cleanCells : Option Nat → List (Option String) → List (Option String)
  | _, [] => []
  | none, c :: r => stripCell c :: cleanCells none r
  | some 0, c :: r => cleanDateCell (stripCell c) :: cleanCells none r
  | some (i + 1), c :: r => stripCell c :: cleanCells (some i) r

/-- `limpar_dados`: strip all cells, canonicalize the `data` column, then
drop exact-duplicate rows keeping first occurrences. -/
def limpar_dados (df : DataFrame) : DataFrame :=
  { cols := df.cols,
    rows := uniqueF (df.rows.map (cleanCells (df.cols.findIdx? (fun c => c == "data")))) }

/-! ### Chart generator (`gerar_dot_moderno`, Chuvas.py lines 260-305)

The generator runs on the cleaned five-column table, whose relevant cells are
all strings, so its rows are modelled with a typed record. -/

/-- One row of the cleaned table as consumed by the chart generator. -/
structure OrgRow where
  nome : String
  funcao : String
  encarregado : String
  supervisor : String
deriving DecidableEq

/-- The `config` dict: `config.get(key, default)` reads an optional entry. -/
structure Config where
  layout : Option String
  cor_encarregado : Option String
  cor_funcionario : Option String
deriving DecidableEq

/-- Python `config.get(key, default)`. -/
def cfgGet (o : Option String) (d : String) : String := o.getD d

/-- `get_color_palette()['supervisor']`: the fixed 7-entry supervisor palette. -/
def supPalette : List String :=
  ["#FF6B6B", "#4ECDC4", "#45B7D1", "#96CEB4", "#FFEAA7", "#DDA0DD", "#98D8CA"]

/-- `get_color_palette()['encarregado']`. -/
def encColor : String := "#FFE66D"

/-- `get_color_palette()['funcionario']`. -/
def funColor : String := "#A8E6CF"

/-- `colors['supervisor'][idx % len(colors['supervisor'])]` (line 277). -/
def corSupervisor (idx : Nat) : String :=
  supPalette.getD (idx % supPalette.length) ""

/-- Replace every occurrence of character `c` by `rep` (one Python
`str.replace` pass with a single-character pattern). -/
def replChar (c : Char) (rep : List Char) : List Char → List Char
  | [] => []
  | x :: l => (if x = c then rep else [x]) ++ replChar c rep l

/-- `escape_dot` (lines 264-265): replace `"` by `\"`, then newline by the
two-character pair `\n`, then `&` by `&amp;`. -/
def escape_dot (texto : String) : String :=
  String.mk (replChar '&' ("&amp;".data) (replChar '\n' ['\\', 'n']
    (replChar '"' ['\\', '"'] texto.data)))

/-- The fixed opening lines of the DOT document (lines 267-272). -/
def dotHeader (config : Config) : String :=
  "digraph Organograma \x7b\n" ++
  "  rankdir=" ++ cfgGet config.layout "LR" ++ ";\n" ++
  "  compound=true;\n" ++
  "  bgcolor=\"white\";\n" ++
  "  node [fontname=\"Helvetica\", style=filled, fontsize=10];\n" ++
  "  edge [color=\"#666666\", arrowsize=0.8];\n\n"

/-- The two lines emitted for one person row (lines 294-300). -/
def pessoaLines (config : Config) (enc : String) (row : OrgRow) : String :=
  let nome := escape_dot row.nome
  let func := escape_dot row.funcao
  let label := nome ++ "\\n(" ++ func ++ ")"
  "    \"" ++ nome ++ "\" [shape=box, fillcolor=\"" ++
    cfgGet config.cor_funcionario funColor ++ "\", label=\"" ++ label ++
    "\", style=\"filled,rounded\"];\n" ++
  "    \"" ++ escape_dot enc ++ "\" -> \"" ++ nome ++ "\" [color=\"#666666\"];\n"

/-- The block emitted for one encarregado under a supervisor (lines 290-300). -/
def encBlock (config : Config) (cor : String) (sup : String) (dfSup : List OrgRow)
    (enc : String) : String :=
  "    \"" ++ escape_dot enc ++ "\" [shape=box, fillcolor=\"" ++
    cfgGet config.cor_encarregado encColor ++
    "\", style=\"filled,rounded\", penwidth=1.5];\n" ++
  "    \"" ++ escape_dot sup ++ "\" -> \"" ++ escape_dot enc ++
    "\" [style=bold, color=\"" ++ cor ++ "\"];\n" ++
  String.join ((dfSup.filter (fun r => r.encarregado = enc)).map (pessoaLines config enc))

/-- The subgraph cluster for the supervisor at first-appearance index
`p.1` (lines 276-302). -/
def clusterBlock (config : Config) (df : List OrgRow) (p : Nat × String) : String :=
  let idx := p.1
  let sup := p.2
  let cor := corSupervisor idx
  let dfSup := df.filter (fun r => r.supervisor = sup)
  "  subgraph cluster_" ++ toString idx ++ " \x7b\n" ++
  "    label=\"" ++ escape_dot sup ++ "\";\n" ++
  "    style=filled;\n" ++
  "    fillcolor=\"" ++ cor ++ "30\";\n" ++
  "    color=\"" ++ cor ++ "\";\n" ++
  "    penwidth=2;\n" ++
  "    \"" ++ escape_dot sup ++ "\" [shape=ellipse, fillcolor=\"" ++ cor ++
    "\", fontcolor=\"white\", fontsize=12, penwidth=2];\n" ++
  String.join ((uniqueF (dfSup.map OrgRow.encarregado)).map (encBlock config cor sup dfSup)) ++
  "  \x7d\n\n"

/-- `df["supervisor"].unique().tolist()` (line 274): unique supervisors in
first-appearance order. -/
def supervisorsOf (df : List OrgRow) : List String := uniqueF (df.map OrgRow.supervisor)

/-- `gerar_dot_moderno`: the full DOT document. -/
def gerar_dot_moderno (df : List OrgRow) (config : Config) : String :=
  dotHeader config ++
  String.join ((supervisorsOf df).enum.map (clusterBlock config df)) ++
  "\x7d\n"

/-! ### Snapshot differ (`comparar_equipes`, Chuvas.py lines 341-365) -/

/-- `df_tot[df_tot["data"] == d]`: the rows of one date slice. -/
def sliceRows (df : DataFrame) (di : Nat) (d : String) : List (List (Option String)) :=
  df.rows.filter (fun r => cellAt r di = some d)

/-- The set-difference pair of `comparar_equipes` (lines 359-360):
`pessoas_saida = set(df1["nome"]) - set(df2["nome"])` and
`pessoas_entrada = set(df2["nome"]) - set(df1["nome"])`.  `none` when the
table lacks the `data` or `nome` column (a `KeyError` in the source). -/
def comparar_sets (df : DataFrame) (data1 data2 : String) :
    Option (Finset (Option String) × Finset (Option String)) :=
  match df.cols.findIdx? (fun c => c == "data"), df.cols.findIdx? (fun c => c == "nome") with
  | some di, some ni =>
    let n1 := ((sliceRows df di data1).map (fun r => cellAt r ni)).toFinset
    let n2 := ((sliceRows df di data2).map (fun r => cellAt r ni)).toFinset
    some (n1 \ n2, n2 \ n1)
  | _, _ => none

/-- Modelled from the spec wording of §4.5: the `name` column restricted to
the date slice of `d`, as a set. -/
def namesOnDate (df : DataFrame) (d : String) : Finset (Option String) :=
  match df.cols.findIdx? (fun c => c == "data"), df.cols.findIdx? (fun c => c == "nome") with
  | some di, some ni =>
    ((df.rows.filter (fun r => cellAt r di = some d)).map (fun r => cellAt r ni)).toFinset
  | _, _ => ∅

/-! ### Heap model for the no-mutation claim about `limpar_dados`

`limpar_dados` receives a reference to a table, allocates a copy
(`df.copy()`), performs its in-place column writes only on that copy, and
`drop_duplicates` returns a fresh table.  A store is a list of tables,
references are indices, allocation appends. -/

/-- The Python-level execution of `limpar_dados` over an explicit store. -/
def limpar_py (σ : List DataFrame) (r : Nat) : List DataFrame × Nat :=
  match σ[r]? with
  | none => (σ, r)
  | some df =>
    let rc := σ.length
    let σ₁ := σ ++ [df]
    let di := df.cols.findIdx? (fun c => c == "data")
    let σ₂ := σ₁.set rc { cols := df.cols, rows := df.rows.map (cleanCells di) }
    let res : DataFrame := { cols := df.cols, rows := uniqueF (df.rows.map (cleanCells di)) }
    (σ₂ ++ [res], σ₂.length)

/-! ### Supporting lemmas: first-appearance dedup -/

theorem uniqueF_sub {α : Type} [DecidableEq α] {l : List α} {x : α}
    (h : x ∈ uniqueF l) : x ∈ l := by
  unfold uniqueF at h
  rw [List.mem_reverse, List.mem_dedup, List.mem_reverse] at h
  exact h

theorem uniqueF_idem {α : Type} [DecidableEq α] (l : List α) :
    uniqueF (uniqueF l) = uniqueF l := by
  unfold uniqueF
  rw [List.reverse_reverse, List.dedup_idem]

theorem map_id_on {α : Type} {f : α → α} {l : List α}
    (h : ∀ x ∈ l, f x = x) : l.map f = l := by
  induction l with
  | nil => rfl
  | cons a l ih =>
    simp only [List.map_cons]
    rw [h a (List.mem_cons_self a l), ih (fun x hx => h x (List.mem_cons_of_mem a hx))]

theorem dedup_filter {α : Type} [DecidableEq α] (p : α → Bool) (l : List α) :
    (l.dedup).filter p = (l.filter p).dedup := by
  induction l with
  | nil => rfl
  | cons b l ih =>
    by_cases hb : b ∈ l
    · rw [List.dedup_cons_of_mem hb]
      cases hpb : p b
      · rw [List.filter_cons_of_neg (by simp [hpb]), ih]
      · rw [List.filter_cons_of_pos (by simp [hpb]),
          List.dedup_cons_of_mem (by rw [List.mem_filter]; exact ⟨hb, hpb⟩), ih]
    · rw [List.dedup_cons_of_not_mem hb]
      cases hpb : p b
      · rw [List.filter_cons_of_neg (by simp [hpb]), List.filter_cons_of_neg (by simp [hpb]), ih]
      · rw [List.filter_cons_of_pos (by simp [hpb]), List.filter_cons_of_pos (by simp [hpb]),
          List.dedup_cons_of_not_mem (by rw [List.mem_filter]; intro h; exact hb h.1), ih]

theorem dedup_append_singleton {α : Type} [DecidableEq α] (a : α) (m : List α) :
    (m ++ [a]).dedup = (m.dedup).filter (fun x => x ≠ a) ++ [a] := by
  induction m with
  | nil => simp
  | cons b m ih =>
    by_cases hba : b = a
    · subst hba
      rw [List.cons_append, List.dedup_cons_of_mem (by simp), ih]
      by_cases hb : b ∈ m
      · rw [List.dedup_cons_of_mem hb]
      · rw [List.dedup_cons_of_not_mem hb, List.filter_cons_of_neg (by simp)]
    · by_cases hb : b ∈ m
      · rw [List.cons_append, List.dedup_cons_of_mem (by simp [hb]), ih,
          List.dedup_cons_of_mem hb]
      · rw [List.cons_append, List.dedup_cons_of_not_mem (by simp [hb, hba]), ih,
          List.dedup_cons_of_not_mem hb, List.filter_cons_of_pos (by simp [hba])]
        rfl

/-- `uniqueF` keeps the first occurrence of each value, in order. -/
theorem uniqueF_cons {α : Type} [DecidableEq α] (a : α) (l : List α) :
    uniqueF (a :: l) = a :: uniqueF (l.filter (fun x => x ≠ a)) := by
  unfold uniqueF
  rw [List.reverse_cons, dedup_append_singleton, List.reverse_append,
    List.reverse_singleton, dedup_filter, ← List.filter_reverse]
  rfl

/-! ### Supporting lemmas: stripping -/

theorem dropWhile_head_false {α : Type} {p : α → Bool} {l : List α} {x : α} {xs : List α}
    (h : l.dropWhile p = x :: xs) : p x = false := by
  induction l with
  | nil => simp at h
  | cons a l ih =>
    by_cases hp : p a
    · rw [List.dropWhile_cons_of_pos hp] at h
      exact ih h
    · rw [List.dropWhile_cons_of_neg hp] at h
      injection h with h1 h2
      subst h1
      cases hpa : p a with
      | false => rfl
      | true => exact absurd hpa hp

theorem dropWhile_eq_self_of_head {α : Type} {p : α → Bool} {l : List α}
    (h : ∀ c, l.head? = some c → p c = false) : l.dropWhile p = l := by
  cases l with
  | nil => rfl
  | cons a l => exact List.dropWhile_cons_of_neg (by rw [h a rfl]; exact Bool.false_ne_true)

theorem getLast?_dropWhile {α : Type} {p : α → Bool} (l : List α)
    (h : l.dropWhile p ≠ []) : (l.dropWhile p).getLast? = l.getLast? := by
  induction l with
  | nil => simp at h
  | cons a l ih =>
    by_cases hp : p a
    · rw [List.dropWhile_cons_of_pos hp] at h ⊢
      rw [ih h]
      cases l with
      | nil => simp at h
      | cons b l' => rw [List.getLast?_cons_cons]
    · rw [List.dropWhile_cons_of_neg hp]

theorem stripL_head (l : List Char) (c : Char) (h : (stripL l).head? = some c) :
    ws c = false := by
  unfold stripL at h
  rw [List.head?_reverse] at h
  have hne : (l.dropWhile ws).reverse.dropWhile ws ≠ [] := by
    intro he
    rw [he] at h
    simp at h
  rw [getLast?_dropWhile _ hne, List.getLast?_reverse] at h
  rcases hd : (l.dropWhile ws) with _ | ⟨x, xs⟩
  · rw [hd] at h
    simp at h
  · rw [hd] at h
    simp only [List.head?_cons, Option.some.injEq] at h
    subst h
    exact dropWhile_head_false hd

theorem stripL_getLast (l : List Char) (c : Char) (h : (stripL l).getLast? = some c) :
    ws c = false := by
  unfold stripL at h
  rw [List.getLast?_reverse] at h
  rcases hd : (l.dropWhile ws).reverse.dropWhile ws with _ | ⟨x, xs⟩
  · rw [hd] at h
    simp at h
  · rw [hd] at h
    simp only [List.head?_cons, Option.some.injEq] at h
    subst h
    exact dropWhile_head_false hd

theorem stripL_eq_self {l : List Char}
    (h1 : ∀ c, l.head? = some c → ws c = false)
    (h2 : ∀ c, l.getLast? = some c → ws c = false) : stripL l = l := by
  unfold stripL
  rw [dropWhile_eq_self_of_head h1]
  rw [dropWhile_eq_self_of_head (fun c hc => h2 c (by rwa [List.head?_reverse] at hc))]
  exact List.reverse_reverse l

theorem stripL_idem (l : List Char) : stripL (stripL l) = stripL l :=
  stripL_eq_self (stripL_head l) (stripL_getLast l)

theorem stripL_of_not_ws {l : List Char} (h : ∀ c ∈ l, ws c = false) : stripL l = l :=
  stripL_eq_self
    (fun c hc => h c (List.mem_of_mem_head? (by rw [hc]; rfl)))
    (fun c hc => h c (by
      rw [← List.head?_reverse] at hc
      exact List.mem_reverse.mp (List.mem_of_mem_head? (by rw [hc]; rfl))))

theorem pyStrip_idem (s : String) : pyStrip (pyStrip s) = pyStrip s := by
  unfold pyStrip
  rw [stripL_idem]

theorem stripCell_idem (c : Option String) : stripCell (stripCell c) = stripCell c := by
  unfold stripCell pyToStr
  rw [pyStrip_idem]

/-! ### Supporting lemmas: digits, date parsing and formatting -/

theorem digCh_cases (k : Nat) (hk : k < 10) :
    ws (Char.ofNat (48 + k)) = false ∧ Char.ofNat (48 + k) ≠ '/' ∧
    (Char.ofNat (48 + k)).isDigit = true ∧ digVal (Char.ofNat (48 + k)) = k := by
  interval_cases k <;> exact (by decide)

theorem digCh_spec (n : Nat) :
    ws (digCh n) = false ∧ digCh n ≠ '/' ∧ (digCh n).isDigit = true ∧
    digVal (digCh n) = n % 10 :=
  digCh_cases (n % 10) (Nat.mod_lt n (by decide))

theorem natDigsAux_spec :
    ∀ fuel n, n < fuel →
      natDigsAux fuel n ≠ [] ∧
      (∀ c ∈ natDigsAux fuel n, ws c = false ∧ c ≠ '/' ∧ c.isDigit = true) ∧
      (natDigsAux fuel n).foldl (fun a c => a * 10 + digVal c) 0 = n := by
  intro fuel
  induction fuel with
  | zero => intro n hn; omega
  | succ fuel ih =>
    intro n hn
    by_cases h10 : n < 10
    · refine ⟨by simp [natDigsAux, h10], ?_, ?_⟩
      · intro c hc
        simp only [natDigsAux, if_pos h10, List.mem_singleton] at hc
        subst hc
        exact ⟨(digCh_spec n).1, (digCh_spec n).2.1, (digCh_spec n).2.2.1⟩
      · simp only [natDigsAux, if_pos h10, List.foldl_cons, List.foldl_nil, Nat.zero_mul,
          Nat.zero_add]
        rw [(digCh_spec n).2.2.2]
        omega
    · have hdiv : n / 10 < fuel := by
        have := Nat.div_lt_self (by omega : 0 < n) (by omega : 1 < 10)
        omega
      obtain ⟨ihne, ihc, ihv⟩ := ih (n / 10) hdiv
      refine ⟨by simp [natDigsAux, h10], ?_, ?_⟩
      · intro c hc
        simp only [natDigsAux, if_neg h10, List.mem_append, List.mem_singleton] at hc
        rcases hc with hc | hc
        · exact ihc c hc
        · subst hc
          exact ⟨(digCh_spec (n % 10)).1, (digCh_spec (n % 10)).2.1,
            (digCh_spec (n % 10)).2.2.1⟩
      · simp only [natDigsAux, if_neg h10, List.foldl_append, ihv, List.foldl_cons,
          List.foldl_nil]
        rw [(digCh_spec (n % 10)).2.2.2]
        omega

theorem natDigs_spec (n : Nat) :
    natDigs n ≠ [] ∧
    (∀ c ∈ natDigs n, ws c = false ∧ c ≠ '/' ∧ c.isDigit = true) ∧
    (natDigs n).foldl (fun a c => a * 10 + digVal c) 0 = n :=
  natDigsAux_spec (n + 1) n (Nat.lt_succ_self n)

theorem parseNat_natDigs (n : Nat) : parseNat (natDigs n) = some n := by
  obtain ⟨hne, hc, hv⟩ := natDigs_spec n
  unfold parseNat
  rw [if_neg (by simpa using hne), if_pos (List.all_eq_true.mpr (fun c hcm => (hc c hcm).2.2)),
    hv]

theorem pad2_chars (n : Nat) : ∀ c ∈ pad2 n, ws c = false ∧ c ≠ '/' ∧ c.isDigit = true := by
  intro c hc
  unfold pad2 at hc
  split at hc
  · rcases List.mem_cons.mp hc with hc | hc
    · subst hc
      exact ⟨by decide, by decide, by decide⟩
    · exact (natDigs_spec n).2.1 c hc
  · exact (natDigs_spec n).2.1 c hc

theorem parseNat_pad2 (n : Nat) : parseNat (pad2 n) = some n := by
  unfold pad2
  split
  · obtain ⟨hne, hc, hv⟩ := natDigs_spec n
    unfold parseNat
    rw [if_neg (by simp), if_pos ?_]
    · simp only [List.foldl_cons]
      have h0 : (0 : Nat) * 10 + digVal '0' = 0 := by decide
      rw [h0, hv]
    · refine List.all_eq_true.mpr ?_
      intro c hcm
      rcases List.mem_cons.mp hcm with hc0 | hc0
      · subst hc0; decide
      · exact (hc c hc0).2.2
  · exact parseNat_natDigs n

theorem splitSlash_ne_nil (l : List Char) : splitSlash l ≠ [] := by
  cases l with
  | nil => simp [splitSlash]
  | cons c l =>
    unfold splitSlash
    split
    · simp
    · split <;> simp

theorem splitSlash_no_slash {l : List Char} (h : '/' ∉ l) : splitSlash l = [l] := by
  induction l with
  | nil => rfl
  | cons c l ih =>
    have hc : ¬ c = '/' := fun he => h (he ▸ List.mem_cons_self c l)
    have hl : '/' ∉ l := fun hm => h (List.mem_cons_of_mem c hm)
    unfold splitSlash
    rw [if_neg hc, ih hl]

theorem splitSlash_cons_ne (c : Char) (l : List Char) (hc : ¬ c = '/') :
    splitSlash (c :: l) =
      match splitSlash l with
      | [] => [[c]]
      | t :: ts => (c :: t) :: ts := by
  show (if c = '/' then [] :: splitSlash l
    else
      match splitSlash l with
      | [] => [[c]]
      | t :: ts => (c :: t) :: ts) = _
  rw [if_neg hc]

theorem splitSlash_append {a : List Char} (h : '/' ∉ a) (r : List Char) :
    splitSlash (a ++ '/' :: r) = a :: splitSlash r := by
  induction a with
  | nil => simp [splitSlash]
  | cons c a ih =>
    have hc : ¬ c = '/' := fun he => h (he ▸ List.mem_cons_self c a)
    have ha : '/' ∉ a := fun hm => h (List.mem_cons_of_mem c hm)
    rw [List.cons_append, splitSlash_cons_ne c _ hc, ih ha]

theorem fmtDate_data (y m d : Nat) :
    (fmtDate (y, m, d)).data = pad2 d ++ '/' :: (pad2 m ++ '/' :: natDigs y) := rfl

theorem fmtDate_not_ws (y m d : Nat) : ∀ c ∈ (fmtDate (y, m, d)).data, ws c = false := by
  intro c hc
  rw [fmtDate_data] at hc
  rcases List.mem_append.mp hc with hc | hc
  · exact (pad2_chars d c hc).1
  · rcases List.mem_cons.mp hc with hc | hc
    · subst hc; decide
    · rcases List.mem_append.mp hc with hc | hc
      · exact (pad2_chars m c hc).1
      · rcases List.mem_cons.mp hc with hc | hc
        · subst hc; decide
        · exact ((natDigs_spec y).2.1 c hc).1

theorem pyStrip_fmtDate (y m d : Nat) : pyStrip (fmtDate (y, m, d)) = fmtDate (y, m, d) := by
  unfold pyStrip
  rw [stripL_of_not_ws (fmtDate_not_ws y m d)]

theorem parse_fmtDate (y m d : Nat) (hm1 : 1 ≤ m) (hm2 : m ≤ 12) (hd1 : 1 ≤ d) (hd2 : d ≤ 31)
    (hst : 12 < d ∨ d = m) : pandasParseDate (fmtDate (y, m, d)) = some (y, m, d) := by
  have hsd : '/' ∉ pad2 d := fun hm => (pad2_chars d '/' hm).2.1 rfl
  have hsm : '/' ∉ pad2 m := fun hm => (pad2_chars m '/' hm).2.1 rfl
  have hsy : '/' ∉ natDigs y := fun hm => ((natDigs_spec y).2.1 '/' hm).2.1 rfl
  unfold pandasParseDate
  rw [fmtDate_data, splitSlash_append hsd, splitSlash_append hsm, splitSlash_no_slash hsy]
  simp only [parseNat_pad2, parseNat_natDigs]
  rcases hst with hgt | heq
  · rw [if_neg (by omega), if_pos (by omega)]
  · subst heq
    rw [if_pos (by omega)]

theorem parse_valid {s : String} {y m d : Nat}
    (h : pandasParseDate s = some (y, m, d)) : 1 ≤ m ∧ m ≤ 12 ∧ 1 ≤ d ∧ d ≤ 31 := by
  unfold pandasParseDate at h
  split at h
  · split at h
    · split at h
      · rename_i hcond
        simp only [Option.some.injEq, Prod.mk.injEq] at h
        obtain ⟨_, h2, h3⟩ := h
        subst h2; subst h3
        omega
      · split at h
        · rename_i hcond
          simp only [Option.some.injEq, Prod.mk.injEq] at h
          obtain ⟨_, h2, h3⟩ := h
          subst h2; subst h3
          omega
        · exact absurd h (by simp)
    · exact absurd h (by simp)
  · exact absurd h (by simp)

/-! ### Supporting lemmas: idempotence of the cleaner -/

/-- Days in a calendar month, with the Gregorian leap rule. -/
def diasNoMes (y m : Nat) : Nat :=
  if m = 2 then (if (y % 4 = 0 ∧ y % 100 ≠ 0) ∨ y % 400 = 0 then 29 else 28)
  else if m = 4 ∨ m = 6 ∨ m = 9 ∨ m = 11 then 30 else 31

/-- One raw date string is stable under a second cleaning pass, within the
faithfully modelled fragment of pandas parsing: the string must parse as a
slash-separated numeric date that denotes a real calendar date with a
4-digit year (exactly the inputs on which `pandasParseDate` and real pandas
provably agree), and its day must exceed 12 or equal its month — the
condition under which pandas' month-first reparse of the emitted
`DD/MM/YYYY` text returns the same date.  A string the model cannot parse is
never considered stable (real pandas may well parse it, e.g. ISO
`YYYY-MM-DD`, and then a second cleaning pass swaps its day and month). -/
def dateStable (s : String) : Bool :=
  match pandasParseDate s with
  | none => false
  | some (y, m, d) =>
    decide ((12 < d ∨ d = m) ∧ 1000 ≤ y ∧ y ≤ 9999 ∧ 1 ≤ d ∧ d ≤ diasNoMes y m)

/-- Every date cell of the table (as the cleaner will see it, stringified and
stripped) is stable. -/
def tableDatesStable (df : DataFrame) : Bool :=
  match df.cols.findIdx? (fun c => c == "data") with
  | none => true
  | some i => df.rows.all (fun r => dateStable (pyStrip (pyToStr (cellAt r i))))

theorem cleanDateCell_stable {c : Option String}
    (h : dateStable (pyStrip (pyToStr c)) = true) :
    cleanDateCell (stripCell (cleanDateCell (stripCell c))) = cleanDateCell (stripCell c) := by
  unfold dateStable at h
  cases hp : pandasParseDate (pyStrip (pyToStr c)) with
  | none =>
    rw [hp] at h
    exact absurd h (by simp)
  | some v =>
    obtain ⟨y, m, d⟩ := v
    rw [hp] at h
    have hst : 12 < d ∨ d = m := (of_decide_eq_true h).1
    obtain ⟨hm1, hm2, hd1, hd2⟩ := parse_valid hp
    have h1 : cleanDateCell (stripCell c) = some (fmtDate (y, m, d)) := by
      unfold cleanDateCell stripCell
      rw [show pyToStr (some (pyStrip (pyToStr c))) = pyStrip (pyToStr c) from rfl, hp]
      rfl
    rw [h1]
    unfold cleanDateCell stripCell
    rw [show pyToStr (some (pyStrip (pyToStr (some (fmtDate (y, m, d)))))) =
        pyStrip (fmtDate (y, m, d)) from rfl,
      pyStrip_fmtDate, parse_fmtDate y m d hm1 hm2 hd1 hd2 hst]
    rfl

theorem cleanCells_idem :
    ∀ (di : Option Nat) (r : List (Option String)),
      (∀ i, di = some i → dateStable (pyStrip (pyToStr (cellAt r i))) = true) →
      cleanCells di (cleanCells di r) = cleanCells di r := by
  intro di r
  induction r generalizing di with
  | nil =>
    intro _
    cases di with
    | none => rfl
    | some i => cases i <;> rfl
  | cons c r ih =>
    intro h
    cases di with
    | none =>
      show stripCell (stripCell c) :: cleanCells none (cleanCells none r) = _
      rw [stripCell_idem, ih none (fun i hi => absurd hi (by simp))]
      rfl
    | some i =>
      cases i with
      | zero =>
        have h0 : dateStable (pyStrip (pyToStr c)) = true := by
          have := h 0 rfl
          rwa [cellAt, List.getD_cons_zero] at this
        show cleanDateCell (stripCell (cleanDateCell (stripCell c))) ::
          cleanCells none (cleanCells none r) = _
        rw [cleanDateCell_stable h0, ih none (fun i hi => absurd hi (by simp))]
        rfl
      | succ i =>
        show stripCell (stripCell c) :: cleanCells (some i) (cleanCells (some i) r) = _
        rw [stripCell_idem, ih (some i) (fun j hj => by
          have hij : i = j := by injection hj
          subst hij
          have := h (i + 1) rfl
          rwa [cellAt, List.getD_cons_succ] at this)]
        rfl

/-! ### Supporting lemmas: escaping and DOT label lexing -/

/-- Single-pass characterization of `escape_dot` on one character. -/
def escChar (c : Char) : List Char :=
  if c = '"' then ['\\', '"']
  else if c = '\n' then ['\\', 'n']
  else if c = '&' then "&amp;".data
  else [c]

/-- `escape_dot` as one left-to-right pass. -/
def escL : List Char → List Char
  | [] => []
  | c :: l => escChar c ++ escL l

/-- Lex the remainder of a DOT double-quoted string (after the opening
quote): a quote closes it, a backslash escapes the next character.
Returns the input following the closing quote, `none` if unterminated. -/
def lexQuoted : List Char → Option (List Char)
  | [] => none
  | c :: l =>
    if c = '"' then some l
    else if c = '\\' then
      match l with
      | [] => none
      | _ :: l2 => lexQuoted l2
    else lexQuoted l

/-- A string can stand between double quotes as one DOT quoted label:
appending the closing quote lexes to exactly the end of input. -/
def validLabel (s : String) : Bool := lexQuoted (s.data ++ ['"']) == some []

theorem replChar_append (c : Char) (rep : List Char) (l₁ l₂ : List Char) :
    replChar c rep (l₁ ++ l₂) = replChar c rep l₁ ++ replChar c rep l₂ := by
  induction l₁ with
  | nil => rfl
  | cons x l ih =>
    show (if x = c then rep else [x]) ++ replChar c rep (l ++ l₂) = _
    rw [ih, ← List.append_assoc]
    rfl

theorem escL_eq (l : List Char) :
    replChar '&' ("&amp;".data) (replChar '\n' ['\\', 'n'] (replChar '"' ['\\', '"'] l)) =
      escL l := by
  induction l with
  | nil => rfl
  | cons c l ih =>
    show replChar '&' _ (replChar '\n' _
      ((if c = '"' then ['\\', '"'] else [c]) ++ replChar '"' ['\\', '"'] l)) = escChar c ++ escL l
    rw [replChar_append, replChar_append, ih]
    congr 1
    by_cases h1 : c = '"'
    · subst h1
      rfl
    · by_cases h2 : c = '\n'
      · subst h2
        rw [if_neg (by decide)]
        rfl
      · by_cases h3 : c = '&'
        · subst h3
          rw [if_neg (by decide)]
          rfl
        · rw [if_neg h1]
          show replChar '&' _ ((if c = '\n' then ['\\', 'n'] else [c]) ++ []) = _
          rw [if_neg h2]
          show (if c = '&' then "&amp;".data else [c]) ++ _ = _
          rw [if_neg h3]
          simp [escChar, replChar, h1, h2, h3]

theorem escape_dot_eq (s : String) : escape_dot s = String.mk (escL s.data) := by
  unfold escape_dot
  rw [escL_eq]

theorem lexQuoted_cons_other {c : Char} (h1 : c ≠ '"') (h2 : c ≠ '\\') (r : List Char) :
    lexQuoted (c :: r) = lexQuoted r := by
  rw [lexQuoted.eq_def]
  simp only [if_neg h1, if_neg h2]

theorem lexQuoted_escChar (c : Char) (hc : c ≠ '\\') (r : List Char) :
    lexQuoted (escChar c ++ r) = lexQuoted r := by
  by_cases h1 : c = '"'
  · subst h1
    rfl
  · by_cases h2 : c = '\n'
    · subst h2
      rfl
    · by_cases h3 : c = '&'
      · subst h3
        show lexQuoted ('&' :: 'a' :: 'm' :: 'p' :: ';' :: r) = lexQuoted r
        rw [lexQuoted_cons_other (by decide) (by decide), lexQuoted_cons_other (by decide) (by decide),
          lexQuoted_cons_other (by decide) (by decide), lexQuoted_cons_other (by decide) (by decide),
          lexQuoted_cons_other (by decide) (by decide)]
      · have he : escChar c = [c] := by
          unfold escChar
          rw [if_neg h1, if_neg h2, if_neg h3]
        rw [he]
        show lexQuoted (c :: r) = lexQuoted r
        exact lexQuoted_cons_other h1 hc r

theorem lexQuoted_escL {l : List Char} (h : '\\' ∉ l) :
    lexQuoted (escL l ++ ['"']) = some [] := by
  induction l with
  | nil =>
    show lexQuoted ['"'] = some []
    rw [lexQuoted, if_pos rfl]
  | cons c l ih =>
    have hc : c ≠ '\\' := fun he => h (he ▸ List.mem_cons_self c l)
    have hl : '\\' ∉ l := fun hm => h (List.mem_cons_of_mem c hm)
    show lexQuoted ((escChar c ++ escL l) ++ ['"']) = some []
    rw [List.append_assoc, lexQuoted_escChar c hc, ih hl]

/-! ### Concrete example tables used by counterexamples and witnesses -/

/-- C2 counterexample input: one date with day 5, month 1. -/
def dfC2 : DataFrame := { cols := ["data"], rows := [[some "05/01/2024"]] }

/-- C2 witness input: stable dates (day 13 exceeds 12), with padding. -/
def dfC2w : DataFrame :=
  { cols := ["data", "nome"],
    rows := [[some "13/02/2024", some " Ana "], [some " 13/02/2024", some "Bia"]] }

/-- C3 scenario: raw headers and 3 rows, the second with a null `Cargo`. -/
def c3Raw : DataFrame :=
  { cols := ["DT", "Nome", "Cargo", "Encarregado", "Supervisor"],
    rows := [
      [some "01/03/2024", some "Ana", some "Montador", some "Bia", some "Caio"],
      [some "01/03/2024", some "Dudu", none, some "Bia", some "Caio"],
      [some "01/03/2024", some "Edu", some "Soldador", some "Fifi", some "Caio"]] }

/-- The C3 table after resolving and renaming its headers. -/
def c3Renamed : DataFrame := renameDf c3Raw (mapear_colunas c3Raw.cols)

/-- C4 scenario headers. -/
def c4Headers : List String := ["Date", "Employee Name", "Role", "Responsavel", "Manager"]

/-- C6 witness table: date A has Ana and Bia, date B has Bia and Caio. -/
def dfCmp : DataFrame :=
  { cols := ["data", "nome"],
    rows := [[some "01/01/2024", some "Ana"], [some "01/01/2024", some "Bia"],
             [some "02/01/2024", some "Bia"], [some "02/01/2024", some "Caio"]] }

/-- C1/C8 witness table: 8 rows with 8 distinct supervisors. -/
def df8 : List OrgRow :=
  [⟨"P1", "F", "E1", "S1"⟩, ⟨"P2", "F", "E2", "S2"⟩, ⟨"P3", "F", "E3", "S3"⟩,
   ⟨"P4", "F", "E4", "S4"⟩, ⟨"P5", "F", "E5", "S5"⟩, ⟨"P6", "F", "E6", "S6"⟩,
   ⟨"P7", "F", "E7", "S7"⟩, ⟨"P8", "F", "E8", "S8"⟩]

/-- C1 witness config. -/
def cfg1 : Config := { layout := some "TB", cor_encarregado := none, cor_funcionario := some "#FFFFFF" }

/-- C7 witness table: no rows. -/
def dfEmpty : DataFrame := { cols := ["nome"], rows := [] }

/-! ### The claims -/

/-- C1: for every table and config, two calls of `gerar_dot_moderno` with the
same table and config produce identical output text; moreover the cluster/node
ordering is derived from first-appearance order: `supervisorsOf` returns the
first occurrence of each supervisor value, in row order (the generator iterates
it index-by-index, and the per-cluster lead order is the same `uniqueF` on the
supervisor's slice). -/
theorem c1_gerar_dot_deterministic (df₁ df₂ : List OrgRow) (cfg₁ cfg₂ : Config)
    (hdf : df₁ = df₂) (hcfg : cfg₁ = cfg₂) :
    gerar_dot_moderno df₁ cfg₁ = gerar_dot_moderno df₂ cfg₂ ∧
    (∀ (r : OrgRow) (l : List OrgRow),
      supervisorsOf (r :: l) =
        r.supervisor :: uniqueF ((l.map OrgRow.supervisor).filter
          (fun s => s ≠ r.supervisor))) := by
  subst hdf
  subst hcfg
  refine ⟨rfl, ?_⟩
  intro r l
  unfold supervisorsOf
  rw [List.map_cons, uniqueF_cons]

/-- C1 witness: the determinism theorem applied to a concrete table/config. -/
theorem c1_gerar_dot_deterministic_wit :
    gerar_dot_moderno df8 cfg1 = gerar_dot_moderno df8 cfg1 ∧
    supervisorsOf (⟨"P0", "F", "E0", "S1"⟩ :: df8) =
      "S1" :: uniqueF ((df8.map OrgRow.supervisor).filter (fun s => s ≠ "S1")) :=
  ⟨(c1_gerar_dot_deterministic df8 df8 cfg1 cfg1 rfl rfl).1,
   (c1_gerar_dot_deterministic df8 df8 cfg1 cfg1 rfl rfl).2 ⟨"P0", "F", "E0", "S1"⟩ df8⟩

/-- C2 counterexample: `limpar_dados` is not idempotent.  The date
`"05/01/2024"` is first parsed month-first as January 5th and re-emitted as
`"01/05/2024"`; a second pass parses that month-first as May 1st and emits
`"05/01/2024"` again, so the second application changes the table. -/
theorem c2_not_idempotent : limpar_dados (limpar_dados dfC2) ≠ limpar_dados dfC2 := by
  decide

/-- C2 amended: `limpar_dados` is idempotent on every table whose date cells
(as the cleaner sees them: stringified and stripped) are stable: each one is
a slash-separated numeric date denoting a real calendar date with a 4-digit
year — the fragment on which the parsing model provably agrees with pandas —
whose day exceeds 12 or equals its month, which is exactly when pandas'
month-first reparse of the emitted `DD/MM/YYYY` text preserves the date.  In
general the cleaner is not idempotent (see the counterexample: also e.g. an
ISO `"2024-01-05"` becomes `"05/01/2024"` and then `"01/05/2024"`). -/
theorem c2_limpar_idempotent_of_stable (df : DataFrame)
    (h : tableDatesStable df = true) :
    limpar_dados (limpar_dados df) = limpar_dados df := by
  have hrfl : limpar_dados (limpar_dados df) =
      { cols := df.cols,
        rows := uniqueF ((uniqueF (df.rows.map
          (cleanCells (df.cols.findIdx? (fun c => c == "data"))))).map
            (cleanCells (df.cols.findIdx? (fun c => c == "data")))) } := rfl
  rw [hrfl]
  have key : (uniqueF (df.rows.map (cleanCells (df.cols.findIdx? (fun c => c == "data"))))).map
      (cleanCells (df.cols.findIdx? (fun c => c == "data"))) =
      uniqueF (df.rows.map (cleanCells (df.cols.findIdx? (fun c => c == "data")))) := by
    apply map_id_on
    intro x hx
    obtain ⟨r, hr, rfl⟩ := List.mem_map.mp (uniqueF_sub hx)
    apply cleanCells_idem
    intro i hi
    unfold tableDatesStable at h
    rw [hi] at h
    exact List.all_eq_true.mp h r hr
  rw [key, uniqueF_idem]
  rfl

/-- C2 witness: the amended idempotence theorem at a concrete stable table. -/
theorem c2_limpar_idempotent_of_stable_wit :
    tableDatesStable dfC2w = true ∧
    limpar_dados (limpar_dados dfC2w) = limpar_dados dfC2w :=
  ⟨by decide, c2_limpar_idempotent_of_stable dfC2w (by decide)⟩

/-- C3 counterexample: on the scenario table (3 rows, one null `Cargo`), the
pipeline resolve → rename → clean → validate does not produce the claimed
`(False, ["⚠️ 1 valores vazios na coluna \x27funcao\x27"])`: cleaning runs
before validation and `astype(str)` turns the null into the string `"nan"`,
which `isnull` no longer counts. -/
theorem c3_pipeline_counterexample :
    validar_dados (limpar_dados c3Renamed) ≠
      (false, ["⚠️ 1 valores vazios na coluna \x27funcao\x27"]) := by
  decide

/-- C3 amended: the resolver does succeed on the scenario headers (all five
fields found), but the pipeline's validator returns `(True, [])` because the
null `Cargo` was stringified to `"nan"` by the cleaning step; the claimed
warning `(False, ["⚠️ 1 valores vazios na coluna \x27funcao\x27"])` is what
the validator returns only when run on the renamed table before cleaning. -/
theorem c3_pipeline_actual :
    mapear_colunas c3Raw.cols =
      [("data", "DT"), ("nome", "Nome"), ("funcao", "Cargo"),
       ("encarregado", "Encarregado"), ("supervisor", "Supervisor")] ∧
    validar_dados (limpar_dados c3Renamed) = (true, []) ∧
    validar_dados c3Renamed =
      (false, ["⚠️ 1 valores vazios na coluna \x27funcao\x27"]) := by
  refine ⟨by decide, by decide, by decide⟩

/-- C4 counterexample: the resolver does not map all five canonical fields on
these headers — `nome` is absent, because the normalized header
`"employee name"` does not start with any registered name synonym. -/
theorem c4_nome_unmapped : (mapear_colunas c4Headers).lookup "nome" = none := by
  decide

/-- C4 amended: on `["Date", "Employee Name", "Role", "Responsavel",
"Manager"]` the resolver maps exactly four canonical fields — date, role,
lead and supervisor — and leaves `nome` unmapped (prefix matching cannot see
`"name"` inside `"employee name"`). -/
theorem c4_mapping :
    mapear_colunas c4Headers =
      [("data", "Date"), ("funcao", "Role"), ("encarregado", "Responsavel"),
       ("supervisor", "Manager")] := by
  decide

/-- C5 counterexample: a name may contain one of the three escaped characters
(here a double quote) and still break the label, because backslashes are not
escaped: the name `"` followed by `\` escapes to `\"\`, whose trailing
backslash escapes the closing quote of the emitted label. -/
theorem c5_backslash_breaks :
    '"' ∈ ("\"\\").data ∧ validLabel (escape_dot "\"\\") = false := by
  decide

/-- C5 amended: `escape_dot` performs exactly the three claimed replacements
(`"` → `\"`, newline → the two-character pair `\n`, `&` → `&amp;`,
character by character), and every backslash-free string escapes to a
syntactically valid DOT quoted label; a string containing a backslash can
still produce an invalid label (see the counterexample). -/
theorem c5_escape_spec (s : String) :
    escape_dot s = String.mk (escL s.data) ∧
    ('\\' ∉ s.data → validLabel (escape_dot s) = true) := by
  refine ⟨escape_dot_eq s, fun h => ?_⟩
  unfold validLabel
  rw [escape_dot_eq]
  rw [show (String.mk (escL s.data)).data = escL s.data from rfl, lexQuoted_escL h]
  rfl

/-- C5 witness: the escaping theorem at a concrete name containing a quote,
a newline and an ampersand. -/
theorem c5_escape_spec_wit :
    escape_dot "A\"B\nC&D" = String.mk (escL ("A\"B\nC&D").data) ∧
    validLabel (escape_dot "A\"B\nC&D") = true :=
  ⟨(c5_escape_spec "A\"B\nC&D").1, (c5_escape_spec "A\"B\nC&D").2 (by decide)⟩

/-- C6: whenever `comparar_sets` succeeds (both columns present), the departed
set is the name set of the first date minus that of the second, and the
arrived set is the converse, with the name sets taken over the date slices. -/
theorem c6_comparar_spec (df : DataFrame) (d1 d2 : String)
    (p : Finset (Option String) × Finset (Option String))
    (h : comparar_sets df d1 d2 = some p) :
    p.1 = namesOnDate df d1 \ namesOnDate df d2 ∧
    p.2 = namesOnDate df d2 \ namesOnDate df d1 := by
  unfold comparar_sets at h
  unfold namesOnDate sliceRows at *
  cases hdi : df.cols.findIdx? (fun c => c == "data") with
  | none =>
    rw [hdi] at h
    exact absurd h (by simp)
  | some di =>
    cases hni : df.cols.findIdx? (fun c => c == "nome") with
    | none =>
      rw [hdi, hni] at h
      exact absurd h (by simp)
    | some ni =>
      rw [hdi, hni] at h
      simp only [Option.some.injEq] at h
      subst h
      exact ⟨rfl, rfl⟩

/-- C6 witness: date A with names Ana and Bia against date B with Bia and
Caio gives departed = Ana and arrived = Caio. -/
theorem c6_comparar_spec_wit :
    comparar_sets dfCmp "01/01/2024" "02/01/2024" =
      some ({some "Ana"}, {some "Caio"}) ∧
    ({some "Ana"} : Finset (Option String)) =
      namesOnDate dfCmp "01/01/2024" \ namesOnDate dfCmp "02/01/2024" ∧
    ({some "Caio"} : Finset (Option String)) =
      namesOnDate dfCmp "02/01/2024" \ namesOnDate dfCmp "01/01/2024" := by
  refine ⟨by decide, ?_⟩
  exact c6_comparar_spec dfCmp "01/01/2024" "02/01/2024"
    ({some "Ana"}, {some "Caio"}) (by decide)

/-- C7: on every table with zero rows the validator short-circuits: it returns
invalid together with exactly the single empty-table warning (which contains
"vazia"), and no null-count or duplicate warnings. -/
theorem c7_validar_empty (df : DataFrame) (h : df.rows = []) :
    validar_dados df = (false, ["❌ Planilha está vazia"]) := by
  unfold validar_dados
  rw [h]
  rfl

/-- C7 witness: the empty-table theorem at a concrete empty table. -/
theorem c7_validar_empty_wit :
    dfEmpty.rows = [] ∧ validar_dados dfEmpty = (false, ["❌ Planilha está vazia"]) :=
  ⟨rfl, c7_validar_empty dfEmpty rfl⟩

/-- C8: the supervisor at first-appearance index `i` receives palette color
`i mod 7` from the fixed 7-entry palette; in particular (whenever the slice
has at least 8 unique supervisors, so both indices occur) the supervisors at
indices 0 and 7 receive the same color. -/
theorem c8_palette_cycle (df : List OrgRow) (h : 8 ≤ (supervisorsOf df).length)
    (i : Nat) :
    corSupervisor i = supPalette.getD (i % 7) "" ∧ corSupervisor 0 = corSupervisor 7 :=
  ⟨rfl, rfl⟩

/-- C8 witness: a table with 8 distinct supervisors, at index 9. -/
theorem c8_palette_cycle_wit :
    8 ≤ (supervisorsOf df8).length ∧
    (corSupervisor 9 = supPalette.getD (9 % 7) "" ∧ corSupervisor 0 = corSupervisor 7) :=
  ⟨by decide, c8_palette_cycle df8 (by decide) 9⟩

/-- C9: code-bug evidence.  The header `"Líder"` normalizes to `"lider"`, and
the registered lead synonym in `COLUNAS_ESPERADAS` is the accented `"líder"`,
which no accent-folded header can ever start with — so the resolver leaves
the lead field unmapped, contrary to the claim (and the evident intent of
accent-insensitive matching). -/
theorem c9_lider_unmapped :
    normHeader "Líder" = "lider" ∧
    COLUNAS_ESPERADAS.lookup "encarregado" =
      some ["encarregado", "responsavel", "líder", "leader", "supervisor_direto"] ∧
    (mapear_colunas ["Líder"]).lookup "encarregado" = none := by
  refine ⟨by decide, by decide, by decide⟩

/-- C10: the cleaner never mutates its input.  In the heap model, running the
Python-level `limpar_dados` on a store leaves the input reference unchanged,
returns a fresh reference holding exactly `limpar_dados` of the input, and
the result reference differs from the input reference. -/
theorem c10_limpar_no_mutation (σ : List DataFrame) (r : Nat) (df : DataFrame)
    (h : σ[r]? = some df) :
    ((limpar_py σ r).1)[r]? = some df ∧
    ((limpar_py σ r).1)[(limpar_py σ r).2]? = some (limpar_dados df) ∧
    (limpar_py σ r).2 ≠ r := by
  have hr : r < σ.length := by
    by_contra hge
    rw [List.getElem?_eq_none (by omega)] at h
    exact absurd h (by simp)
  unfold limpar_py
  rw [h]
  refine ⟨?_, ?_, by simp; omega⟩
  · have h1 : r < ((σ ++ [df]).set σ.length
        { cols := df.cols,
          rows := df.rows.map (cleanCells (df.cols.findIdx? (fun c => c == "data"))) }).length := by
      simp
      omega
    rw [List.getElem?_append_left h1, List.getElem?_set_ne (by omega),
      List.getElem?_append_left hr]
    exact h
  · exact List.getElem?_concat_length _ _

/-- C10 witness: the no-mutation theorem on a one-table store. -/
theorem c10_limpar_no_mutation_wit :
    ([dfC2] : List DataFrame)[0]? = some dfC2 ∧
    (((limpar_py [dfC2] 0).1)[0]? = some dfC2 ∧
     ((limpar_py [dfC2] 0).1)[(limpar_py [dfC2] 0).2]? = some (limpar_dados dfC2) ∧
     (limpar_py [dfC2] 0).2 ≠ 0) :=
  ⟨rfl, c10_limpar_no_mutation [dfC2] 0 dfC2 rfl⟩

end Chuvas
